import Mathlib

/-!
Shallow embedding of `vectorcade-web-yew/src/main.rs` (the Canvas2D host
shell of the VectorCade vector-arcade platform) for checking its
natural-language specification.

Numeric `f32`/`f64` values of the source are embedded as exact rationals
(`ℚ`); every arithmetic operation of the modelled code paths (comparison
with constants, `min`, addition, subtraction, division by constants) is
exact on the concrete values the claims touch, so the rational model is
faithful to the control flow of the source.

External collaborator types (`Key`, `Button`, `FontStyleId`, glyph data,
the `Game` trait, the RNG) come from crates outside this repository; they
are embedded as plain enumerations / records / abstract parameters, while
every function under verification is translated line by line from
`main.rs`.
-/

namespace Vectorcade

/-- Physical key identities used by the shell (from `vectorcade_shared::input::Key`). -/
inductive Key where
  | Left | Right | Up | Down | Space | Enter | Escape | Z | X | C | W
  deriving DecidableEq, Repr

/-- Edge-triggered button state derived at read time (`vectorcade_shared::input::Button`). -/
structure Button where
  is_down : Bool
  went_down : Bool
  went_up : Bool
  deriving DecidableEq, Repr

/-- Keyboard input state tracking (`WebInput` in `main.rs`): the current key
map and the previous-frame snapshot.  Rust's `HashMap<Key, bool>` is
embedded as `Key → Option Bool`; a key absent from the map is `none`. -/
structure WebInput where
  keys : Key → Option Bool
  prev_keys : Key → Option Bool

/-- `WebInput::default()`: both maps empty. -/
def WebInput.init : WebInput :=
  { keys := fun _ => none, prev_keys := fun _ => none }

/-- `WebInput::set_key`: `self.keys.insert(key, down)`. -/
def WebInput.set_key (s : WebInput) (key : Key) (down : Bool) : WebInput :=
  { s with keys := Function.update s.keys key (some down) }

/-- `WebInput::end_frame`: `self.prev_keys = self.keys.clone()`. -/
def WebInput.end_frame (s : WebInput) : WebInput :=
  { s with prev_keys := s.keys }

/-- `InputState::key` for `WebInput`: derives a `Button` by comparing the
current map against the previous-frame snapshot, defaulting absent keys
to not-down (`unwrap_or(&false)`). -/
def WebInput.key (s : WebInput) (k : Key) : Button :=
  let is_down := (s.keys k).getD false
  let was_down := (s.prev_keys k).getD false
  { is_down := is_down
    went_down := is_down && !was_down
    went_up := !is_down && was_down }

/-- Apply a list of `set_key` calls in order. -/
def WebInput.apply (s : WebInput) (us : List (Key × Bool)) : WebInput :=
  us.foldl (fun t p => t.set_key p.1 p.2) s

/-- Fixed timestep for game updates (`TIMESTEP` in `main.rs`, 60 Hz). -/
def TIMESTEP : ℚ := 1 / 60

/-- The catch-up loop of `GameState::tick`:
`while self.accumulator >= TIMESTEP { ...update...; self.accumulator -= TIMESTEP }`.
Returns the number of simulation steps executed and the final accumulator.
The body's `game.update` call is opaque to the modelled state and does not
affect the accumulator, so the iteration count depends only on the
accumulator's entry value. -/
def runLoop (acc : ℚ) : ℕ × ℚ :=
  if h : TIMESTEP ≤ acc then
    let r := runLoop (acc - TIMESTEP)
    (r.1 + 1, r.2)
  else
    (0, acc)
termination_by ⌊acc / TIMESTEP⌋.toNat
decreasing_by
  have hT : (0 : ℚ) < TIMESTEP := by norm_num [TIMESTEP]
  have h1 : (acc - TIMESTEP) / TIMESTEP = acc / TIMESTEP - 1 := by
    rw [sub_div, div_self (ne_of_gt hT)]
  have h2 : (1 : ℚ) ≤ acc / TIMESTEP := (one_le_div hT).mpr h
  have h3 : (1 : ℤ) ≤ ⌊acc / TIMESTEP⌋ := Int.le_floor.mpr (by exact_mod_cast h2)
  have h4 : ⌊(acc - TIMESTEP) / TIMESTEP⌋ = ⌊acc / TIMESTEP⌋ - 1 := by
    rw [h1, Int.floor_sub_one]
  simp only [h4]
  omega

/-- The per-session state that `GameState::tick` reads and writes, restricted
to the fields the clock and input claims concern (`input`, `accumulator`,
`last_time`).  The games, RNG, draw-command buffer, screen info and font
registry of `GameState` are opaque to these claims: `game.update` /
`game.render` cannot touch any of the three modelled fields. -/
structure TickState where
  input : WebInput
  accumulator : ℚ
  last_time : ℚ

/-- Fields of `GameState::new()` relevant to the clock claims:
`accumulator: 0.0, last_time: 0.0`, default (empty) input maps. -/
def TickState.init : TickState :=
  { input := WebInput.init, accumulator := 0, last_time := 0 }

/-- `GameState::tick(now)`, translated line by line: first-tick seeding of
`last_time`, delta computation in seconds, accumulator update capped at
0.25 s, the fixed-step catch-up loop, and the unconditional
`self.input.end_frame()` at the end.  Returns the new state together with
the number of simulation steps the catch-up loop executed. -/
def TickState.tick (s : TickState) (now : ℚ) : TickState × ℕ :=
  let last := if s.last_time = 0 then now else s.last_time
  let dt := (now - last) / 1000
  let acc := s.accumulator + min dt (1 / 4)
  let r := runLoop acc
  ({ input := s.input.end_frame, accumulator := r.2, last_time := now }, r.1)

/-- Unfolding equation for the catch-up loop. -/
theorem runLoop_eq (acc : ℚ) :
    runLoop acc =
      if TIMESTEP ≤ acc then
        ((runLoop (acc - TIMESTEP)).1 + 1, (runLoop (acc - TIMESTEP)).2)
      else
        (0, acc) := by
  rw [runLoop]
  by_cases h : TIMESTEP ≤ acc <;> simp [h]

/-- The loop does not run when the accumulator is below one timestep. -/
theorem runLoop_of_lt (acc : ℚ) (h : acc < TIMESTEP) : runLoop acc = (0, acc) := by
  rw [runLoop_eq, if_neg (not_le.mpr h)]

/-- An accumulator below `(n+1) · TIMESTEP` yields at most `n` loop iterations. -/
theorem runLoop_count_le (n : ℕ) :
    ∀ acc : ℚ, acc < (n + 1) * TIMESTEP → (runLoop acc).1 ≤ n := by
  induction n with
  | zero =>
      intro acc h
      rw [runLoop_of_lt acc (by simpa using h)]
  | succ n ih =>
      intro acc h
      rw [runLoop_eq]
      by_cases hv : TIMESTEP ≤ acc
      · simp only [if_pos hv]
        have : acc - TIMESTEP < (n + 1) * TIMESTEP := by
          have h2 := h
          push_cast at h2 ⊢
          linarith
        exact Nat.succ_le_succ (ih _ this)
      · simp [hv]

/-- Auxiliary: `min 0 (1/4) = 0` over `ℚ`. -/
theorem min_zero_quarter : min (0 : ℚ) (1 / 4) = 0 :=
  min_eq_left (by norm_num)

/-- C4: on the first-ever tick of a fresh session state (`last_time` still at
its initial value `0.0`, accumulator `0.0`), `tick now` seeds
`last_time := now` and executes zero fixed simulation steps, for every
timestamp `now`: the delta is computed against the freshly seeded
`last_time`, not against the uninitialized origin. -/
theorem tick_first_seeds_and_runs_zero_steps (now : ℚ) :
    (TickState.init.tick now).2 = 0 ∧ (TickState.init.tick now).1.last_time = now := by
  have h0 : runLoop 0 = (0, 0) := runLoop_of_lt 0 (by norm_num [TIMESTEP])
  constructor
  · show (runLoop (TickState.init.accumulator +
      min ((now - (if TickState.init.last_time = 0 then now else TickState.init.last_time))
        / 1000) (1 / 4))).1 = 0
    simp [TickState.init, min_zero_quarter, h0]
  · rfl

/-- C5: a single `tick`, whatever the wall-clock gap `now - last_time`
(including a multi-second stall), executes at most `0.25 / TIMESTEP = 15`
fixed simulation steps when the pre-tick accumulator is below one
timestep: the catch-up loop is bounded, never an unbounded burst. -/
theorem tick_steps_le_fifteen (s : TickState) (now : ℚ)
    (h : s.accumulator < TIMESTEP) : (s.tick now).2 ≤ 15 := by
  show (runLoop (s.accumulator +
      min ((now - (if s.last_time = 0 then now else s.last_time)) / 1000) (1 / 4))).1 ≤ 15
  apply runLoop_count_le
  have hmin :
      min ((now - (if s.last_time = 0 then now else s.last_time)) / 1000) (1 / 4) ≤ 1 / 4 :=
    min_le_right _ _
  have hT : s.accumulator < 1 / 60 := by simpa [TIMESTEP] using h
  have : ((15 : ℕ) : ℚ) + 1 = 16 := by norm_num
  rw [this]
  show _ < (16 : ℚ) * TIMESTEP
  rw [TIMESTEP]
  linarith

/-- Witness for `tick_steps_le_fifteen`: a session two frames in
(`last_time = 1`, empty accumulator) hit by a three-second stall. -/
theorem tick_steps_le_fifteen_witness :
    ((⟨WebInput.init, 0, 1⟩ : TickState).accumulator < TIMESTEP) ∧
      ((⟨WebInput.init, 0, 1⟩ : TickState).tick 3001).2 ≤ 15 := by
  constructor
  · show (0 : ℚ) < TIMESTEP
    norm_num [TIMESTEP]
  · exact tick_steps_le_fifteen _ 3001 (by norm_num [TickState.init, TIMESTEP])

/-- A fresh session state with one pending key edge: `Space` was pressed
(`set_key(Space, true)` from the keydown listener) but no simulation step
has consumed it yet. -/
def pendingEdgeState : TickState :=
  { input := WebInput.init.set_key Key.Space true, accumulator := 0, last_time := 0 }

/-- C1 (failing input): the claim says `end_frame` is never invoked after a
tick that ran zero simulation steps, but `GameState::tick` calls
`self.input.end_frame()` unconditionally.  Concretely: with a pending
`Space` went-down edge, the first tick (timestamp 5000 ms) runs zero
simulation steps, yet afterwards the previous-key snapshot has been
replaced and the still-unconsumed edge is erased. -/
theorem tick_zero_steps_still_ends_frame :
    (pendingEdgeState.input.key Key.Space).went_down = true
    ∧ (pendingEdgeState.tick 5000).2 = 0
    ∧ (((pendingEdgeState.tick 5000).1.input).key Key.Space).went_down = false := by
  have h0 : runLoop 0 = (0, 0) := runLoop_of_lt 0 (by norm_num [TIMESTEP])
  refine ⟨by decide, ?_, by decide⟩
  show (runLoop (pendingEdgeState.accumulator +
      min ((5000 - (if pendingEdgeState.last_time = 0 then 5000 else pendingEdgeState.last_time))
        / 1000) (1 / 4))).1 = 0
  simp [pendingEdgeState, min_zero_quarter, h0]

/-- Applying `set_key` calls never touches the previous-frame snapshot. -/
theorem apply_prev_keys (us : List (Key × Bool)) :
    ∀ s : WebInput, (s.apply us).prev_keys = s.prev_keys := by
  induction us with
  | nil => intro s; rfl
  | cons u rest ih =>
      intro s
      show ((s.set_key u.1 u.2).apply rest).prev_keys = s.prev_keys
      rw [ih]
      rfl

/-- Applying `set_key` calls that never mention `k` leaves `k`'s current
entry unchanged. -/
theorem apply_keys_of_not_mem (us : List (Key × Bool)) :
    ∀ s : WebInput, ∀ k : Key, k ∉ us.map Prod.fst →
      (s.apply us).keys k = s.keys k := by
  induction us with
  | nil => intro s k _; rfl
  | cons u rest ih =>
      intro s k hk
      simp only [List.map_cons, List.mem_cons] at hk
      push_neg at hk
      show ((s.set_key u.1 u.2).apply rest).keys k = s.keys k
      rw [ih _ _ hk.2]
      simp [WebInput.set_key, Function.update, hk.1]

/-- C3: after one `end_frame` (whose snapshot is the key map at that moment)
followed by any further `set_key` calls, `key(k).went_down` holds iff `k`
is currently down and was up in the snapshot, `key(k).went_up` holds iff
`k` is currently up and was down in the snapshot, both are false exactly
when `k`'s down-state did not flip, and keys never mentioned by any
`set_key` call default to up with no edges. -/
theorem key_edges_track_snapshot (s : WebInput) (us : List (Key × Bool)) (k : Key) :
    (((s.end_frame.apply us).key k).went_down
        = (((s.end_frame.apply us).keys k).getD false && !((s.keys k).getD false)))
    ∧ (((s.end_frame.apply us).key k).went_up
        = (!((s.end_frame.apply us).keys k).getD false && ((s.keys k).getD false)))
    ∧ ((((s.end_frame.apply us).keys k).getD false) = ((s.keys k).getD false) →
        ((s.end_frame.apply us).key k).went_down = false
        ∧ ((s.end_frame.apply us).key k).went_up = false)
    ∧ (k ∉ us.map Prod.fst →
        ((WebInput.init.apply us).key k).is_down = false
        ∧ ((WebInput.init.apply us).key k).went_down = false
        ∧ ((WebInput.init.apply us).key k).went_up = false) := by
  have hprev : (s.end_frame.apply us).prev_keys = s.keys := by
    rw [apply_prev_keys]
    rfl
  refine ⟨?_, ?_, ?_, ?_⟩
  · simp [WebInput.key, hprev]
  · simp [WebInput.key, hprev]
  · intro hflip
    constructor
    · simp [WebInput.key, hprev, hflip]
    · simp [WebInput.key, hprev, hflip]
  · intro hmem
    have hk : (WebInput.init.apply us).keys k = none := by
      rw [apply_keys_of_not_mem us _ _ hmem]
      rfl
    have hp : (WebInput.init.apply us).prev_keys = WebInput.init.prev_keys :=
      apply_prev_keys us _
    have h1 : ((WebInput.init.apply us).keys k).getD false = false := by rw [hk]; rfl
    have h2 : ((WebInput.init.apply us).prev_keys k).getD false = false := by rw [hp]; rfl
    refine ⟨?_, ?_, ?_⟩ <;> simp [WebInput.key, h1, h2]

/-- Witness for `key_edges_track_snapshot`: snapshot has `Z` down; after the
frame boundary `X` is pressed.  `X` reports a went-down edge, `Z` (whose
state did not flip) reports no edge, and the never-mentioned key `C`
defaults to up. -/
theorem key_edges_track_snapshot_witness :
    ((((WebInput.init.set_key Key.Z true).end_frame.apply [(Key.X, true)]).key Key.X).went_down
      = true)
    ∧ ((((WebInput.init.set_key Key.Z true).end_frame.apply [(Key.X, true)]).key Key.Z).went_down
        = false)
    ∧ ((((WebInput.init.set_key Key.Z true).end_frame.apply [(Key.X, true)]).key Key.Z).went_up
        = false)
    ∧ (((WebInput.init.apply [(Key.X, true)]).key Key.C).is_down = false) := by
  have h1 := key_edges_track_snapshot (WebInput.init.set_key Key.Z true) [(Key.X, true)] Key.X
  have h2 := key_edges_track_snapshot (WebInput.init.set_key Key.Z true) [(Key.X, true)] Key.Z
  have h3 := key_edges_track_snapshot WebInput.init [(Key.X, true)] Key.C
  refine ⟨?_, ?_, ?_, ?_⟩
  · rw [h1.1]; decide
  · exact (h2.2.2.1 (by decide)).1
  · exact (h2.2.2.1 (by decide)).2
  · exact (h3.2.2.2 (by decide)).1

/-- The session fields `GameState::select_game` reads and writes: the boxed
game collection, the current selection index, and the RNG (which
`game.reset` may advance through the `GameCtx` it receives).  Games and
the RNG are opaque trait objects from external crates, so the model is
polymorphic in their state types `G` and `R`, and `reset` is an arbitrary
function on the selected game's state and the RNG. -/
structure Session (G R : Type) where
  games : List G
  selected : ℕ
  rng : R

/-- `GameState::select_game(idx)`: guard `idx < games.len() && idx != selected`,
then switch the selection and call `reset` on the newly selected game only
(`if let Some(game) = self.games.get_mut(self.selected)`). -/
def select_game {G R : Type} (resetFn : G → R → G × R) (s : Session G R) (idx : ℕ) :
    Session G R :=
  if idx < s.games.length ∧ idx ≠ s.selected then
    match s.games.get? idx with
    | some g =>
        let r := resetFn g s.rng
        { games := s.games.set idx r.1, selected := idx, rng := r.2 }
    | none => { s with selected := idx }
  else s

/-- C6: `select_game(idx)` with `idx` equal to the current selection or out of
range leaves the whole session state unchanged (for every possible `reset`
behaviour, i.e. no `reset` call is observable); otherwise it sets the
selection to `idx` and applies `reset` to the newly selected game only,
leaving every other game's state untouched. -/
theorem select_game_spec {G R : Type} (resetFn : G → R → G × R)
    (s : Session G R) (idx : ℕ) :
    ((idx = s.selected ∨ s.games.length ≤ idx) → select_game resetFn s idx = s)
    ∧ (idx < s.games.length → idx ≠ s.selected →
        (select_game resetFn s idx).selected = idx
        ∧ (∀ j, j ≠ idx →
            (select_game resetFn s idx).games[j]? = s.games[j]?)
        ∧ (∀ g, s.games.get? idx = some g →
            (select_game resetFn s idx).games[idx]? = some (resetFn g s.rng).1)) := by
  constructor
  · intro hno
    rw [select_game, if_neg]
    rintro ⟨hlt, hne⟩
    rcases hno with h | h
    · exact hne h
    · exact absurd hlt (not_lt.mpr h)
  · intro hlt hne
    have hcond : idx < s.games.length ∧ idx ≠ s.selected := ⟨hlt, hne⟩
    refine ⟨?_, ?_, ?_⟩
    · rw [select_game, if_pos hcond]
      rcases hsel : s.games.get? idx with _ | g0 <;> simp
    · intro j hj
      rw [select_game, if_pos hcond]
      rcases hsel : s.games.get? idx with _ | g0
      · simp
      · simp [List.getElem?_set_ne (Ne.symm hj)]
    · intro g0 hg0
      rw [select_game, if_pos hcond, hg0]
      simp [List.getElem?_set_eq_of_lt _ hlt]

/-- Witness for `select_game_spec`: three games (states `10, 20, 30` over
`G = R = ℕ`), reset modelled as successor on both game state and RNG.
Selecting the current index or an out-of-range index is a no-op;
selecting game 1 resets it to `21` and leaves games 0 and 2 untouched. -/
theorem select_game_spec_witness :
    (select_game (fun (g r : ℕ) => (g + 1, r + 1)) ⟨[10, 20, 30], 0, 0⟩ 0
        = (⟨[10, 20, 30], 0, 0⟩ : Session ℕ ℕ))
    ∧ (select_game (fun (g r : ℕ) => (g + 1, r + 1)) ⟨[10, 20, 30], 0, 0⟩ 5
        = (⟨[10, 20, 30], 0, 0⟩ : Session ℕ ℕ))
    ∧ ((select_game (fun (g r : ℕ) => (g + 1, r + 1)) ⟨[10, 20, 30], 0, 0⟩ 1).selected = 1)
    ∧ ((select_game (fun (g r : ℕ) => (g + 1, r + 1)) ⟨[10, 20, 30], 0, 0⟩ 1).games[0]?
        = some 10)
    ∧ ((select_game (fun (g r : ℕ) => (g + 1, r + 1)) ⟨[10, 20, 30], 0, 0⟩ 1).games[1]?
        = some 21) := by
  have h := select_game_spec (fun (g r : ℕ) => (g + 1, r + 1)) ⟨[10, 20, 30], 0, 0⟩ 1
  have hact := h.2 (by decide) (by decide)
  refine ⟨?_, ?_, hact.1, ?_, ?_⟩
  · exact (select_game_spec (fun (g r : ℕ) => (g + 1, r + 1)) ⟨[10, 20, 30], 0, 0⟩ 0).1
      (Or.inl rfl)
  · exact (select_game_spec (fun (g r : ℕ) => (g + 1, r + 1)) ⟨[10, 20, 30], 0, 0⟩ 5).1
      (Or.inr (by decide))
  · exact (hact.2.1 0 (by decide)).trans rfl
  · exact hact.2.2 20 rfl

/-- RGBA color with rational channels (`vectorcade_shared::Rgba`). -/
structure Rgba where
  r : ℚ
  g : ℚ
  b : ℚ
  a : ℚ
  deriving DecidableEq, Repr

/-- A 2D point with rational coordinates (`glam::Vec2`). -/
structure Vec2 where
  x : ℚ
  y : ℚ
  deriving DecidableEq, Repr

/-- Stroke parameters (`vectorcade_shared::draw::Stroke`). -/
structure Stroke where
  color : Rgba
  width_px : ℚ
  glow : ℚ
  deriving DecidableEq, Repr

/-- Opaque font-style identifier (`vectorcade_shared::font::FontStyleId`);
`DEFAULT` and `ATARI` are the two distinguished ids `main.rs` names. -/
structure FontStyleId where
  id : ℕ
  deriving DecidableEq, Repr

/-- The `FontStyleId::DEFAULT` constant. -/
def FontStyleId.DEFAULT : FontStyleId := ⟨0⟩

/-- The `FontStyleId::ATARI` constant (fixed baseline style). -/
def FontStyleId.ATARI : FontStyleId := ⟨1⟩

/-- One glyph-outline command (`vectorcade_shared::font::GlyphPathCmd`). -/
inductive GlyphPathCmd where
  | moveTo (p : Vec2)
  | lineTo (p : Vec2)
  | close
  deriving DecidableEq, Repr

/-- One stroke-drawable glyph outline: an ordered command list. -/
structure GlyphPath where
  cmds : List GlyphPathCmd
  deriving DecidableEq, Repr

/-- A vector font as `main.rs` consumes it: glyph presence test, glyph
outlines, and per-glyph advance metric (the `vectorcade_fonts` provider
behind the registry, abstracted to its observable interface). -/
structure Font where
  has_glyph : Char → Bool
  glyph_paths : Char → List GlyphPath
  advance : Char → ℚ

/-- The font registry's raw per-style lookup (`FontRegistry::get`), abstract:
the registry lives in the external `vectorcade_fonts` crate. -/
def FontRegistry : Type := FontStyleId → Option Font

/-- Backend-agnostic draw command (`vectorcade_shared::draw::DrawCmd`),
restricted to the payloads `main.rs` reads. -/
inductive DrawCmd where
  | clear (color : Rgba)
  | line (a b : Vec2) (stroke : Stroke)
  | polyline (pts : List Vec2) (closed : Bool) (stroke : Stroke)
  | text (pos : Vec2) (str : List Char) (size_px : ℚ) (color : Rgba) (style : FontStyleId)
  | pushTransform
  | popTransform
  | beginLayer
  | endLayer

/-- One observable mutation/draw call on the `CanvasRenderingContext2d`;
`render_to_canvas` and its helpers are embedded as emitters of ordered
lists of these operations.  Color-to-CSS formatting is kept as the
underlying color value (plus computed glow alpha). -/
inductive CanvasOp where
  | setShadowBlur (blur : ℚ)
  | setShadowColor (c : Rgba)
  | setFillStyle (c : Rgba)
  | fillRect (x y w h : ℚ)
  | setStrokeStyle (c : Rgba)
  | setLineWidth (w : ℚ)
  | setLineCap
  | setLineJoin
  | beginPath
  | moveTo (x y : ℚ)
  | lineTo (x y : ℚ)
  | closePath
  | strokePath
  deriving DecidableEq, Repr

/-- Global glow intensity multiplier (`GLOW_INTENSITY` in `main.rs`, 0.8). -/
def GLOW_INTENSITY : ℚ := 8 / 10

/-- `rgba_to_css_glow`: the glow shadow color — same channels with alpha
multiplied and clamped to at most 1. -/
def rgba_to_css_glow (c : Rgba) (alpha_mult : ℚ) : Rgba :=
  { c with a := min (c.a * alpha_mult) 1 }

/-- `apply_glow`: sets shadow blur and glow-tinted shadow color when the glow
intensity and the global multiplier are both positive, else zeroes the
shadow blur. -/
def apply_glow (color : Rgba) (glow : ℚ) : List CanvasOp :=
  if glow > 0 ∧ GLOW_INTENSITY > 0 then
    [CanvasOp.setShadowBlur ((8 + glow * 12) * GLOW_INTENSITY),
     CanvasOp.setShadowColor (rgba_to_css_glow color ((6 / 10) * glow * GLOW_INTENSITY))]
  else
    [CanvasOp.setShadowBlur 0]

/-- `clear_glow`: zeroes the shadow blur. -/
def clear_glow : List CanvasOp :=
  [CanvasOp.setShadowBlur 0]

/-- `draw_line_with_glow`: effective glow (stroke's own if positive, else the
0.5 default), glow application, the two-point path, stroke setup, the
stroke call, and the trailing glow clear. -/
def draw_line_with_glow (x1 y1 x2 y2 : ℚ) (stroke : Stroke) : List CanvasOp :=
  let effective_glow := if stroke.glow > 0 then stroke.glow else 1 / 2
  apply_glow stroke.color effective_glow
    ++ [CanvasOp.beginPath, CanvasOp.moveTo x1 y1, CanvasOp.lineTo x2 y2,
        CanvasOp.setStrokeStyle stroke.color, CanvasOp.setLineWidth stroke.width_px,
        CanvasOp.setLineCap, CanvasOp.strokePath]
    ++ clear_glow

/-- `draw_polyline_with_glow`: reads `pts[0]` without a guard — embedded as
`none` (the panic) on an empty point list, `some` trace otherwise. -/
def draw_polyline_with_glow (pts : List Vec2) (closed : Bool) (stroke : Stroke)
    (to_px : ℚ → ℚ → ℚ × ℚ) : Option (List CanvasOp) :=
  match pts with
  | [] => none
  | p0 :: rest =>
      let effective_glow := if stroke.glow > 0 then stroke.glow else 1 / 2
      some (apply_glow stroke.color effective_glow
        ++ [CanvasOp.beginPath,
            CanvasOp.moveTo (to_px p0.x p0.y).1 (to_px p0.x p0.y).2]
        ++ rest.map (fun p => CanvasOp.lineTo (to_px p.x p.y).1 (to_px p.x p.y).2)
        ++ (if closed then [CanvasOp.closePath] else [])
        ++ [CanvasOp.setStrokeStyle stroke.color, CanvasOp.setLineWidth stroke.width_px,
            CanvasOp.setLineCap, CanvasOp.setLineJoin, CanvasOp.strokePath]
        ++ clear_glow)

/-- Font resolution chain of `render_vector_text_with_glow`:
`fonts.get(style).or_else(|| fonts.get(DEFAULT)).or_else(|| fonts.get(ATARI))`. -/
def resolveFont (fonts : FontRegistry) (style : FontStyleId) : Option Font :=
  ((fonts style).orElse (fun _ => fonts FontStyleId.DEFAULT)).orElse
    (fun _ => fonts FontStyleId.ATARI)

/-- Glyph-point projection used inside the glyph loop:
`px = cx + (cursor_x + pt.x * glyph_scale) * scale`,
`py = cy - (y + pt.y * glyph_scale) * scale`. -/
def glyphPt (cursor_x y glyph_scale scale cx cy : ℚ) (p : Vec2) : ℚ × ℚ :=
  (cx + (cursor_x + p.x * glyph_scale) * scale, cy - (y + p.y * glyph_scale) * scale)

/-- The inner `for cmd in &path.cmds` loop with its `path_started` flag: a
`LineTo` before any started path degrades to a `MoveTo`. -/
def pathOps (toPt : Vec2 → ℚ × ℚ) : List GlyphPathCmd → Bool → List CanvasOp
  | [], _ => []
  | GlyphPathCmd.moveTo p :: rest, _ =>
      CanvasOp.moveTo (toPt p).1 (toPt p).2 :: pathOps toPt rest true
  | GlyphPathCmd.lineTo p :: rest, started =>
      (if started then CanvasOp.lineTo (toPt p).1 (toPt p).2
       else CanvasOp.moveTo (toPt p).1 (toPt p).2) :: pathOps toPt rest true
  | GlyphPathCmd.close :: rest, started =>
      CanvasOp.closePath :: pathOps toPt rest started

/-- One glyph outline: `begin_path`, the command loop, `stroke`. -/
def renderGlyphPath (toPt : Vec2 → ℚ × ℚ) (path : GlyphPath) : List CanvasOp :=
  CanvasOp.beginPath :: (pathOps toPt path.cmds false ++ [CanvasOp.strokePath])

/-- One character of the text loop: a missing glyph emits nothing and
advances the cursor by `glyph_scale * 0.6`; a present glyph strokes all
its outlines and advances by the font's own metric. -/
def renderChar (font : Font) (glyph_scale y scale cx cy : ℚ) (cursor_x : ℚ) (ch : Char) :
    List CanvasOp × ℚ :=
  if font.has_glyph ch = false then
    ([], cursor_x + glyph_scale * (6 / 10))
  else
    (((font.glyph_paths ch).map
        (renderGlyphPath (glyphPt cursor_x y glyph_scale scale cx cy))).flatten,
     cursor_x + font.advance ch * glyph_scale)

/-- The `for ch in text.chars()` loop, threading the cursor. -/
def renderChars (font : Font) (glyph_scale y scale cx cy : ℚ) :
    List Char → ℚ → List CanvasOp
  | [], _ => []
  | ch :: rest, cursor_x =>
      let r := renderChar font glyph_scale y scale cx cy cursor_x ch
      r.1 ++ renderChars font glyph_scale y scale cx cy rest r.2

/-- `render_vector_text_with_glow`: resolve the font through the fallback
chain (silently emitting nothing when no font resolves), apply the fixed
text glow `0.6`, set up stroke state, run the glyph loop starting at `x`
with `glyph_scale = size_px / scale`, and clear the glow. -/
def render_vector_text_with_glow (fonts : FontRegistry) (style : FontStyleId)
    (text : List Char) (x y size_px : ℚ) (color : Rgba) (scale cx cy : ℚ) :
    List CanvasOp :=
  match resolveFont fonts style with
  | none => []
  | some font =>
      apply_glow color (6 / 10)
        ++ [CanvasOp.setStrokeStyle color, CanvasOp.setLineWidth 2,
            CanvasOp.setLineCap, CanvasOp.setLineJoin]
        ++ renderChars font (size_px / scale) y scale cx cy text x
        ++ clear_glow

/-- The NDC-to-pixel projection of `render_to_canvas`:
`scale = min(width, height) / 2`, centering at `(cx, cy)`. -/
def to_px (scale cx cy : ℚ) (x y : ℚ) : ℚ × ℚ :=
  (cx + x * scale, cy - y * scale)

/-- The per-command dispatch of `render_to_canvas`'s `match cmd` arm.  `Clear`
force-clears the glow then fills; a `Polyline` with fewer than two points
is skipped (`continue`); transform/layer markers are no-ops.  `none`
propagates the (unreachable) out-of-bounds read of
`draw_polyline_with_glow`. -/
def renderCmd (width height : ℚ) (fonts : FontRegistry) (cmd : DrawCmd) :
    Option (List CanvasOp) :=
  let scale := min width height / 2
  let cx := width / 2
  let cy := height / 2
  match cmd with
  | DrawCmd.clear color =>
      some (clear_glow ++ [CanvasOp.setFillStyle color, CanvasOp.fillRect 0 0 width height])
  | DrawCmd.line a b stroke =>
      some (draw_line_with_glow (to_px scale cx cy a.x a.y).1 (to_px scale cx cy a.x a.y).2
        (to_px scale cx cy b.x b.y).1 (to_px scale cx cy b.x b.y).2 stroke)
  | DrawCmd.polyline pts closed stroke =>
      if pts.length < 2 then some []
      else draw_polyline_with_glow pts closed stroke (to_px scale cx cy)
  | DrawCmd.text pos str size_px color style =>
      some (render_vector_text_with_glow fonts style str pos.x pos.y size_px color scale cx cy)
  | DrawCmd.pushTransform => some []
  | DrawCmd.popTransform => some []
  | DrawCmd.beginLayer => some []
  | DrawCmd.endLayer => some []

/-- `render_to_canvas`: process the command list in order, then ensure the
glow is cleared at the end. -/
def render_to_canvas (cmds : List DrawCmd) (width height : ℚ) (fonts : FontRegistry) :
    Option (List CanvasOp) :=
  (cmds.mapM (renderCmd width height fonts)).map (fun ls => ls.flatten ++ clear_glow)

/-- The canvas's shadow-blur register after executing a list of operations
starting from blur `b` (only `setShadowBlur` writes it). -/
def blurAfter (b : ℚ) (ops : List CanvasOp) : ℚ :=
  ops.foldl
    (fun c op =>
      match op with
      | CanvasOp.setShadowBlur v => v
      | _ => c) b

/-- Checks that every `fillRect` in the list executes while the shadow blur
is zero (no pending glow leaks into a background fill). -/
def fillsGlowFree (b : ℚ) : List CanvasOp → Bool
  | [] => true
  | op :: rest =>
      (match op with
       | CanvasOp.fillRect _ _ _ _ => decide (b = 0)
       | _ => true)
      && fillsGlowFree
           (match op with
            | CanvasOp.setShadowBlur v => v
            | _ => b) rest

/-- True when the list contains no `fillRect` operation. -/
def noFill (ops : List CanvasOp) : Bool :=
  ops.all
    (fun op =>
      match op with
      | CanvasOp.fillRect _ _ _ _ => false
      | _ => true)

/-- Shadow-blur tracking distributes over concatenation. -/
theorem blurAfter_append (b : ℚ) (l1 l2 : List CanvasOp) :
    blurAfter b (l1 ++ l2) = blurAfter (blurAfter b l1) l2 :=
  List.foldl_append _ _ _ _

/-- Any trace ending in `clear_glow` leaves the shadow blur at zero. -/
theorem blurAfter_ends_clear (b : ℚ) (l : List CanvasOp) :
    blurAfter b (l ++ clear_glow) = 0 := by
  rw [blurAfter_append]
  rfl

/-- The fill check distributes over concatenation, threading the blur. -/
theorem fillsGlowFree_append (l1 : List CanvasOp) :
    ∀ (b : ℚ) (l2 : List CanvasOp),
      fillsGlowFree b (l1 ++ l2)
        = (fillsGlowFree b l1 && fillsGlowFree (blurAfter b l1) l2) := by
  induction l1 with
  | nil => intro b l2; simp [fillsGlowFree, blurAfter]
  | cons op rest ih =>
      intro b l2
      simp only [List.cons_append, fillsGlowFree, List.append_eq]
      rw [ih]
      rw [show blurAfter b (op :: rest)
            = blurAfter
                (match op with
                 | CanvasOp.setShadowBlur v => v
                 | _ => b) rest from rfl]
      rw [Bool.and_assoc]

/-- A fill-free trace vacuously satisfies the fill check. -/
theorem fillsGlowFree_of_noFill (l : List CanvasOp) :
    ∀ b : ℚ, noFill l = true → fillsGlowFree b l = true := by
  induction l with
  | nil => intro b _; rfl
  | cons op rest ih =>
      intro b h
      simp only [noFill, List.all_cons, Bool.and_eq_true] at h
      simp only [fillsGlowFree, Bool.and_eq_true]
      constructor
      · cases op <;> simp_all
      · exact ih _ (by simp [noFill, h.2])

/-- `noFill` distributes over concatenation. -/
theorem noFill_append (l1 l2 : List CanvasOp) :
    noFill (l1 ++ l2) = (noFill l1 && noFill l2) := by
  simp [noFill]

/-- `apply_glow` emits no fill. -/
theorem noFill_apply_glow (c : Rgba) (g : ℚ) : noFill (apply_glow c g) = true := by
  rw [apply_glow]
  split <;> rfl

/-- `draw_line_with_glow` emits no fill. -/
theorem noFill_draw_line (x1 y1 x2 y2 : ℚ) (st : Stroke) :
    noFill (draw_line_with_glow x1 y1 x2 y2 st) = true := by
  simp [draw_line_with_glow, noFill_append, noFill_apply_glow]
  rfl

/-- `draw_polyline_with_glow` emits no fill. -/
theorem noFill_draw_polyline (pts : List Vec2) (closed : Bool) (st : Stroke)
    (f : ℚ → ℚ → ℚ × ℚ) (ops : List CanvasOp)
    (h : draw_polyline_with_glow pts closed st f = some ops) : noFill ops = true := by
  match pts, h with
  | p0 :: rest, h =>
      rw [draw_polyline_with_glow] at h
      injection h with h
      subst h
      simp only [noFill_append, noFill_apply_glow, Bool.true_and, Bool.and_eq_true]
      refine ⟨⟨⟨⟨rfl, ?_⟩, ?_⟩, rfl⟩, rfl⟩
      · simp [noFill, List.all_map]
      · split <;> rfl

/-- The glyph-outline loop emits no fill. -/
theorem noFill_pathOps (toPt : Vec2 → ℚ × ℚ) (cmds : List GlyphPathCmd) :
    ∀ started : Bool, noFill (pathOps toPt cmds started) = true := by
  induction cmds with
  | nil => intro started; rfl
  | cons c rest ih =>
      intro started
      cases c with
      | moveTo p => simpa [pathOps, noFill] using ih true
      | lineTo p =>
          cases started <;>
            simpa [pathOps, noFill] using ih true
      | close => simpa [pathOps, noFill] using ih started

/-- A rendered glyph outline emits no fill. -/
theorem noFill_renderGlyphPath (toPt : Vec2 → ℚ × ℚ) (p : GlyphPath) :
    noFill (renderGlyphPath toPt p) = true := by
  simp [renderGlyphPath, noFill, noFill_append]
  have := noFill_pathOps toPt p.cmds false
  simp [noFill] at this
  exact fun op h => this op h

/-- The text character loop emits no fill. -/
theorem noFill_renderChars (font : Font) (gs y scale cx cy : ℚ) (text : List Char) :
    ∀ cursor : ℚ, noFill (renderChars font gs y scale cx cy text cursor) = true := by
  induction text with
  | nil => intro cursor; rfl
  | cons ch rest ih =>
      intro cursor
      rw [renderChars, noFill_append, ih, Bool.and_true]
      rw [renderChar]
      split
      · rfl
      · simp only [noFill, List.all_eq_true]
        intro op hop
        rw [List.mem_flatten] at hop
        obtain ⟨l, hl, hop⟩ := hop
        rw [List.mem_map] at hl
        obtain ⟨p, _, hp⟩ := hl
        have := noFill_renderGlyphPath (glyphPt cursor y gs scale cx cy) p
        simp only [noFill, List.all_eq_true] at this
        exact this op (hp ▸ hop)

/-- `render_vector_text_with_glow` emits no fill. -/
theorem noFill_render_text (fonts : FontRegistry) (style : FontStyleId)
    (text : List Char) (x y size_px : ℚ) (color : Rgba) (scale cx cy : ℚ) :
    noFill (render_vector_text_with_glow fonts style text x y size_px color scale cx cy)
      = true := by
  rw [render_vector_text_with_glow]
  split
  · rfl
  · rw [noFill_append, noFill_append, noFill_append, noFill_apply_glow, noFill_renderChars]
    rfl

/-- `draw_line_with_glow` leaves the shadow blur at zero. -/
theorem blurAfter_draw_line (b x1 y1 x2 y2 : ℚ) (st : Stroke) :
    blurAfter b (draw_line_with_glow x1 y1 x2 y2 st) = 0 := by
  rw [draw_line_with_glow]
  exact blurAfter_ends_clear _ _

/-- `draw_polyline_with_glow` leaves the shadow blur at zero. -/
theorem blurAfter_draw_polyline (b : ℚ) (pts : List Vec2) (closed : Bool) (st : Stroke)
    (f : ℚ → ℚ → ℚ × ℚ) (ops : List CanvasOp)
    (h : draw_polyline_with_glow pts closed st f = some ops) : blurAfter b ops = 0 := by
  match pts, h with
  | p0 :: rest, h =>
      rw [draw_polyline_with_glow] at h
      injection h with h
      subst h
      exact blurAfter_ends_clear _ _

/-- `render_vector_text_with_glow` leaves the shadow blur at zero whenever a
font resolves. -/
theorem blurAfter_render_text (b : ℚ) (fonts : FontRegistry) (style : FontStyleId)
    (text : List Char) (x y size_px : ℚ) (color : Rgba) (scale cx cy : ℚ) (font : Font)
    (h : resolveFont fonts style = some font) :
    blurAfter b (render_vector_text_with_glow fonts style text x y size_px color scale cx cy)
      = 0 := by
  rw [render_vector_text_with_glow, h]
  exact blurAfter_ends_clear _ _

/-- A single dispatched draw command passes the fill check from any entry
blur: only `Clear` fills, and it zeroes the blur first. -/
theorem fillsGlowFree_renderCmd (w h : ℚ) (fonts : FontRegistry) (cmd : DrawCmd)
    (ops : List CanvasOp) (b : ℚ)
    (hc : renderCmd w h fonts cmd = some ops) : fillsGlowFree b ops = true := by
  cases cmd with
  | clear color =>
      injection hc with hc
      subst hc
      rfl
  | line a c st =>
      injection hc with hc
      subst hc
      exact fillsGlowFree_of_noFill _ b (noFill_draw_line _ _ _ _ _)
  | polyline pts closed st =>
      rw [renderCmd] at hc
      split at hc
      · injection hc with hc
        subst hc
        rfl
      · exact fillsGlowFree_of_noFill _ b (noFill_draw_polyline _ _ _ _ _ hc)
  | text pos str size color style =>
      injection hc with hc
      subst hc
      exact fillsGlowFree_of_noFill _ b (noFill_render_text _ _ _ _ _ _ _ _ _ _)
  | pushTransform =>
      injection hc with hc
      subst hc
      rfl
  | popTransform =>
      injection hc with hc
      subst hc
      rfl
  | beginLayer =>
      injection hc with hc
      subst hc
      rfl
  | endLayer =>
      injection hc with hc
      subst hc
      rfl

/-- Every dispatched draw command yields a trace (in particular the guarded
`Polyline` dispatch never reaches `draw_polyline_with_glow`'s unguarded
`pts[0]` read with an empty point list). -/
theorem renderCmd_isSome (w h : ℚ) (fonts : FontRegistry) (cmd : DrawCmd) :
    (renderCmd w h fonts cmd).isSome = true := by
  cases cmd with
  | polyline pts closed st =>
      rw [renderCmd]
      split
      · rfl
      · rename_i hlen
        match pts, hlen with
        | p0 :: rest, _ => rfl
  | clear color => rfl
  | line a c st => rfl
  | text pos str size color style => rfl
  | pushTransform => rfl
  | popTransform => rfl
  | beginLayer => rfl
  | endLayer => rfl

/-- The whole command walk yields a trace. -/
theorem mapM_renderCmd_isSome (w h : ℚ) (fonts : FontRegistry) :
    ∀ cmds : List DrawCmd, (cmds.mapM (renderCmd w h fonts)).isSome = true := by
  intro cmds
  induction cmds with
  | nil => rfl
  | cons c cs ih =>
      obtain ⟨x, hx⟩ := Option.isSome_iff_exists.mp (renderCmd_isSome w h fonts c)
      obtain ⟨xs, hxs⟩ := Option.isSome_iff_exists.mp ih
      rw [List.mapM_cons, hx, hxs]
      rfl

/-- The concatenated traces of a command walk pass the fill check from any
entry blur. -/
theorem fillsGlowFree_mapM (w h : ℚ) (fonts : FontRegistry) :
    ∀ (cmds : List DrawCmd) (ls : List (List CanvasOp)) (b : ℚ),
      cmds.mapM (renderCmd w h fonts) = some ls →
      fillsGlowFree b ls.flatten = true := by
  intro cmds
  induction cmds with
  | nil =>
      intro ls b hm
      rw [List.mapM_nil] at hm
      injection hm with hm
      subst hm
      rfl
  | cons c cs ih =>
      intro ls b hm
      rw [List.mapM_cons] at hm
      cases hx : renderCmd w h fonts c with
      | none => rw [hx] at hm; exact absurd hm (by simp)
      | some x =>
          rw [hx] at hm
          cases hxs : cs.mapM (renderCmd w h fonts) with
          | none => rw [hxs] at hm; exact absurd hm (by simp)
          | some xs =>
              rw [hxs] at hm
              have hm2 : ls = x :: xs := by
                have := hm.symm
                simpa using this
              subst hm2
              rw [List.flatten_cons, fillsGlowFree_append]
              rw [fillsGlowFree_renderCmd w h fonts c x b hx,
                  ih xs (blurAfter b x) hxs, Bool.and_self]

/-- The whole render entry point always yields a trace. -/
theorem render_to_canvas_isSome (cmds : List DrawCmd) (w h : ℚ) (fonts : FontRegistry) :
    (render_to_canvas cmds w h fonts).isSome = true := by
  rw [render_to_canvas]
  obtain ⟨ls, hls⟩ := Option.isSome_iff_exists.mp (mapM_renderCmd_isSome w h fonts cmds)
  rw [hls]
  rfl

/-- C7: processing any DrawCmd sequence leaves the canvas glow-cleared: the
final shadow blur is zero from any entry blur; every `fillRect` (emitted
only by `Clear`, which force-clears the glow first) executes with zero
blur even when a nonzero blur was pending at entry; and each glow-bearing
primitive (line, drawn polyline, resolved text) ends with its own glow
cleared, so no primitive's glow is still active when a later unrelated
command is processed. -/
theorem render_glow_state_invariant (cmds : List DrawCmd) (width height : ℚ)
    (fonts : FontRegistry) (ops : List CanvasOp) (b0 : ℚ) :
    (render_to_canvas cmds width height fonts = some ops →
      blurAfter b0 ops = 0 ∧ fillsGlowFree b0 ops = true)
    ∧ (∀ (x1 y1 x2 y2 : ℚ) (st : Stroke),
        blurAfter b0 (draw_line_with_glow x1 y1 x2 y2 st) = 0)
    ∧ (∀ (pts : List Vec2) (closed : Bool) (st : Stroke) (f : ℚ → ℚ → ℚ × ℚ)
        (ops2 : List CanvasOp),
        draw_polyline_with_glow pts closed st f = some ops2 → blurAfter b0 ops2 = 0)
    ∧ (∀ (style : FontStyleId) (text : List Char) (x y size_px : ℚ) (color : Rgba)
        (scale cx cy : ℚ) (font : Font),
        resolveFont fonts style = some font →
        blurAfter b0
          (render_vector_text_with_glow fonts style text x y size_px color scale cx cy) = 0) := by
  refine ⟨?_, ?_, ?_, ?_⟩
  · intro hr
    rw [render_to_canvas] at hr
    obtain ⟨ls, hls, hops⟩ := Option.map_eq_some'.mp hr
    subst hops
    constructor
    · exact blurAfter_ends_clear _ _
    · rw [fillsGlowFree_append, fillsGlowFree_mapM width height fonts cmds ls b0 hls]
      rfl
  · intro x1 y1 x2 y2 st
    exact blurAfter_draw_line b0 x1 y1 x2 y2 st
  · intro pts closed st f ops2 h2
    exact blurAfter_draw_polyline b0 pts closed st f ops2 h2
  · intro style text x y size_px color scale cx cy font hf
    exact blurAfter_render_text b0 fonts style text x y size_px color scale cx cy font hf

/-- C10: a `Polyline` whose point sequence has fewer than two points is
skipped entirely by the dispatch (empty trace, no drawing calls), and the
whole render walk always yields a trace (`isSome`): the unguarded `pts[0]`
read inside `draw_polyline_with_glow` — which would fail on an empty point
list — is never reached. -/
theorem polyline_short_skip (w h : ℚ) (fonts : FontRegistry) (pts : List Vec2)
    (closed : Bool) (st : Stroke) (cmds : List DrawCmd) :
    (pts.length < 2 → renderCmd w h fonts (DrawCmd.polyline pts closed st) = some [])
    ∧ (render_to_canvas cmds w h fonts).isSome = true := by
  constructor
  · intro hlen
    rw [renderCmd]
    rw [if_pos hlen]
  · rw [render_to_canvas]
    obtain ⟨ls, hls⟩ := Option.isSome_iff_exists.mp (mapM_renderCmd_isSome w h fonts cmds)
    rw [hls]
    rfl

/-- C8: the font used for a `Text` command is resolved in the order requested
style → `DEFAULT` → `ATARI`; when none of the three resolves, the text is
silently skipped: the emitted trace is empty — nothing drawn, no failure,
no canvas state modified for that command. -/
theorem font_fallback_order (fonts : FontRegistry) (style : FontStyleId) (font : Font)
    (text : List Char) (x y size_px : ℚ) (color : Rgba) (scale cx cy : ℚ)
    (width height : ℚ) (pos : Vec2) :
    (fonts style = some font → resolveFont fonts style = some font)
    ∧ (fonts style = none → fonts FontStyleId.DEFAULT = some font →
        resolveFont fonts style = some font)
    ∧ (fonts style = none → fonts FontStyleId.DEFAULT = none →
        fonts FontStyleId.ATARI = some font → resolveFont fonts style = some font)
    ∧ (fonts style = none → fonts FontStyleId.DEFAULT = none →
        fonts FontStyleId.ATARI = none →
        resolveFont fonts style = none
        ∧ render_vector_text_with_glow fonts style text x y size_px color scale cx cy = []
        ∧ renderCmd width height fonts (DrawCmd.text pos text size_px color style)
            = some (render_vector_text_with_glow fonts style text pos.x pos.y size_px color
                (min width height / 2) (width / 2) (height / 2))) := by
  refine ⟨?_, ?_, ?_, ?_⟩
  · intro h1
    rw [resolveFont, h1]
    rfl
  · intro h1 h2
    rw [resolveFont, h1]
    show ((fonts FontStyleId.DEFAULT).orElse fun _ => fonts FontStyleId.ATARI) = some font
    rw [h2]
    rfl
  · intro h1 h2 h3
    rw [resolveFont, h1]
    show ((fonts FontStyleId.DEFAULT).orElse fun _ => fonts FontStyleId.ATARI) = some font
    rw [h2]
    show fonts FontStyleId.ATARI = some font
    exact h3
  · intro h1 h2 h3
    have hres : resolveFont fonts style = none := by
      rw [resolveFont, h1]
      show ((fonts FontStyleId.DEFAULT).orElse fun _ => fonts FontStyleId.ATARI) = none
      rw [h2]
      show fonts FontStyleId.ATARI = none
      exact h3
    refine ⟨hres, ?_, ?_⟩
    · rw [render_vector_text_with_glow, hres]
    · rfl

/-- C9: a character the resolved font reports no glyph for advances the text
cursor by exactly `0.6 · glyph_scale` (with `glyph_scale = size_px / scale`)
while emitting zero stroke operations, and layout continues with the
remaining characters from the advanced cursor. -/
theorem missing_glyph_advances (font : Font) (size_px scale y cx cy cursor_x : ℚ)
    (ch : Char) (rest : List Char) (h : font.has_glyph ch = false) :
    renderChar font (size_px / scale) y scale cx cy cursor_x ch
        = ([], cursor_x + size_px / scale * (6 / 10))
    ∧ renderChars font (size_px / scale) y scale cx cy (ch :: rest) cursor_x
        = renderChars font (size_px / scale) y scale cx cy rest
            (cursor_x + size_px / scale * (6 / 10)) := by
  have hc : renderChar font (size_px / scale) y scale cx cy cursor_x ch
      = ([], cursor_x + size_px / scale * (6 / 10)) := by
    rw [renderChar, if_pos h]
  refine ⟨hc, ?_⟩
  rw [renderChars, hc]
  simp

/-- The effective glow chosen by the line/polyline helpers is positive. -/
theorem effective_glow_pos (st : Stroke) :
    (if st.glow > 0 then st.glow else 1 / 2) > 0 := by
  split
  · assumption
  · norm_num

/-- With a positive glow intensity, `apply_glow` starts by setting the blur
derived from that intensity. -/
theorem apply_glow_head (c : Rgba) (g : ℚ) (hg : g > 0) :
    (apply_glow c g).head? = some (CanvasOp.setShadowBlur ((8 + g * 12) * GLOW_INTENSITY)) := by
  rw [apply_glow, if_pos ⟨hg, by norm_num [GLOW_INTENSITY]⟩]
  rfl

/-- C2 (amended): for `Line` and `Polyline` the glow intensity handed to the
post-processor — observable as the shadow blur `(8 + glow·12) · 0.8` set
first in the trace — is the stroke's own glow when positive and the
default `0.5` otherwise; text as a whole is always rendered with the fixed
glow `0.6`, not `0.5`. -/
theorem effective_glow_selection (st : Stroke) (x1 y1 x2 y2 : ℚ) (pts : List Vec2)
    (closed : Bool) (f : ℚ → ℚ → ℚ × ℚ) (ops : List CanvasOp) (fonts : FontRegistry)
    (style : FontStyleId) (text : List Char) (x y size_px : ℚ) (color : Rgba)
    (scale cx cy : ℚ) (font : Font) :
    ((draw_line_with_glow x1 y1 x2 y2 st).head?
        = some (CanvasOp.setShadowBlur
            ((8 + (if st.glow > 0 then st.glow else 1 / 2) * 12) * GLOW_INTENSITY)))
    ∧ (draw_polyline_with_glow pts closed st f = some ops →
        ops.head? = some (CanvasOp.setShadowBlur
            ((8 + (if st.glow > 0 then st.glow else 1 / 2) * 12) * GLOW_INTENSITY)))
    ∧ (resolveFont fonts style = some font →
        (render_vector_text_with_glow fonts style text x y size_px color scale cx cy).head?
          = some (CanvasOp.setShadowBlur ((8 + 6 / 10 * 12) * GLOW_INTENSITY))) := by
  have hhead := apply_glow_head st.color _ (effective_glow_pos st)
  refine ⟨?_, ?_, ?_⟩
  · rw [draw_line_with_glow, apply_glow, if_pos ⟨effective_glow_pos st,
      by norm_num [GLOW_INTENSITY]⟩]
    rfl
  · intro hp
    match pts, hp with
    | p0 :: rest, hp =>
        rw [draw_polyline_with_glow] at hp
        injection hp with hp
        subst hp
        rw [apply_glow, if_pos ⟨effective_glow_pos st, by norm_num [GLOW_INTENSITY]⟩]
        rfl
  · intro hres
    rw [render_vector_text_with_glow, hres]
    show (apply_glow color (6 / 10)
        ++ [CanvasOp.setStrokeStyle color, CanvasOp.setLineWidth 2,
            CanvasOp.setLineCap, CanvasOp.setLineJoin]
        ++ renderChars font (size_px / scale) y scale cx cy text x
        ++ clear_glow).head?
      = some (CanvasOp.setShadowBlur ((8 + 6 / 10 * 12) * GLOW_INTENSITY))
    rw [apply_glow, if_pos ⟨by norm_num, by norm_num [GLOW_INTENSITY]⟩]
    rfl

/-- A font providing no glyphs at all (still a valid provider). -/
def emptyFont : Font :=
  { has_glyph := fun _ => false, glyph_paths := fun _ => [], advance := fun _ => 0 }

/-- A registry with no font registered at any style. -/
def noFonts : FontRegistry := fun _ => none

/-- A registry whose only registered font sits at the `ATARI` baseline style. -/
def atariOnly : FontRegistry :=
  fun s => if s = FontStyleId.ATARI then some emptyFont else none

/-- Opaque white color used by concrete witnesses. -/
def whiteColor : Rgba := ⟨1, 1, 1, 1⟩

/-- A stroke with `glow = 0` (the spec's round-trip example stroke). -/
def sampleStroke : Stroke := { color := whiteColor, width_px := 2, glow := 0 }

/-- C2 (counterexample to the claim as stated): at a concrete text command
(style 5, size 14, 100×100 viewport projection) the first emitted shadow
blur is `(8 + 0.6·12)·0.8 = 304/25`, the value for glow intensity `0.6` —
not `(8 + 0.5·12)·0.8 = 56/5`, the value the claimed default `0.5` would
produce. -/
theorem text_glow_is_not_half :
    (render_vector_text_with_glow (fun _ => some emptyFont) ⟨5⟩ [] 0 0 14 whiteColor
        50 50 50).head? = some (CanvasOp.setShadowBlur (304 / 25))
    ∧ (8 + 6 / 10 * 12) * GLOW_INTENSITY = (304 / 25 : ℚ)
    ∧ (8 + 1 / 2 * 12) * GLOW_INTENSITY = (56 / 5 : ℚ)
    ∧ (render_vector_text_with_glow (fun _ => some emptyFont) ⟨5⟩ [] 0 0 14 whiteColor
        50 50 50).head? ≠ some (CanvasOp.setShadowBlur ((8 + 1 / 2 * 12) * GLOW_INTENSITY)) := by
  have hres : resolveFont (fun _ => some emptyFont) ⟨5⟩ = some emptyFont := rfl
  have hhead : (render_vector_text_with_glow (fun _ => some emptyFont) ⟨5⟩ [] 0 0 14
      whiteColor 50 50 50).head?
      = some (CanvasOp.setShadowBlur ((8 + 6 / 10 * 12) * GLOW_INTENSITY)) := by
    rw [render_vector_text_with_glow, hres]
    show (apply_glow whiteColor (6 / 10)
        ++ [CanvasOp.setStrokeStyle whiteColor, CanvasOp.setLineWidth 2,
            CanvasOp.setLineCap, CanvasOp.setLineJoin]
        ++ renderChars emptyFont (14 / 50) 0 50 50 50 [] 0
        ++ clear_glow).head?
      = some (CanvasOp.setShadowBlur ((8 + 6 / 10 * 12) * GLOW_INTENSITY))
    rw [apply_glow, if_pos ⟨by norm_num, by norm_num [GLOW_INTENSITY]⟩]
    rfl
  have hv : (8 + 6 / 10 * 12) * GLOW_INTENSITY = (304 / 25 : ℚ) := by
    norm_num [GLOW_INTENSITY]
  refine ⟨by rw [hhead, hv], hv, by norm_num [GLOW_INTENSITY], ?_⟩
  intro hc
  rw [hhead] at hc
  injection hc with hc
  injection hc with hc
  rw [GLOW_INTENSITY] at hc
  norm_num at hc

/-- Witness for `effective_glow_selection`: a zero-glow line and polyline get
the `0.5` default, and text through the `ATARI` fallback gets `0.6`. -/
theorem effective_glow_selection_witness :
    ((draw_line_with_glow 0 0 50 50 sampleStroke).head?
        = some (CanvasOp.setShadowBlur
            ((8 + (if sampleStroke.glow > 0 then sampleStroke.glow else 1 / 2) * 12)
              * GLOW_INTENSITY)))
    ∧ (((draw_polyline_with_glow [⟨-1, 0⟩, ⟨1, 0⟩] false sampleStroke
          (to_px 50 50 50)).getD []).head?
        = some (CanvasOp.setShadowBlur
            ((8 + (if sampleStroke.glow > 0 then sampleStroke.glow else 1 / 2) * 12)
              * GLOW_INTENSITY)))
    ∧ ((render_vector_text_with_glow atariOnly ⟨5⟩ [Char.ofNat 65] 0 0 14 whiteColor
          50 50 50).head?
        = some (CanvasOp.setShadowBlur ((8 + 6 / 10 * 12) * GLOW_INTENSITY))) := by
  have h := effective_glow_selection sampleStroke 0 0 50 50 [⟨-1, 0⟩, ⟨1, 0⟩] false
    (to_px 50 50 50)
    ((draw_polyline_with_glow [⟨-1, 0⟩, ⟨1, 0⟩] false sampleStroke (to_px 50 50 50)).getD [])
    atariOnly ⟨5⟩ [Char.ofNat 65] 0 0 14 whiteColor 50 50 50 emptyFont
  exact ⟨h.1, h.2.1 rfl, h.2.2 rfl⟩

/-- Witness for `render_glow_state_invariant`: the spec's round-trip example —
`[Clear, Line{a=(-1,0), b=(1,0), width=2, glow=0}]` at a 100×100 viewport —
processed from a dirty entry blur of 5 ends glow-cleared, and its only
fill runs with zero blur. -/
theorem render_glow_state_invariant_witness :
    blurAfter 5 ((render_to_canvas [DrawCmd.clear whiteColor,
        DrawCmd.line ⟨-1, 0⟩ ⟨1, 0⟩ sampleStroke] 100 100 noFonts).getD []) = 0
    ∧ fillsGlowFree 5 ((render_to_canvas [DrawCmd.clear whiteColor,
        DrawCmd.line ⟨-1, 0⟩ ⟨1, 0⟩ sampleStroke] 100 100 noFonts).getD []) = true := by
  cases heq : render_to_canvas [DrawCmd.clear whiteColor,
      DrawCmd.line ⟨-1, 0⟩ ⟨1, 0⟩ sampleStroke] 100 100 noFonts with
  | none =>
      have hS := render_to_canvas_isSome [DrawCmd.clear whiteColor,
        DrawCmd.line ⟨-1, 0⟩ ⟨1, 0⟩ sampleStroke] 100 100 noFonts
      rw [heq] at hS
      exact absurd hS (by simp)
  | some ops =>
      have h := (render_glow_state_invariant [DrawCmd.clear whiteColor,
        DrawCmd.line ⟨-1, 0⟩ ⟨1, 0⟩ sampleStroke] 100 100 noFonts ops 5).1 heq
      exact ⟨h.1, h.2⟩

/-- Witness for `polyline_short_skip`: a one-point polyline is skipped with an
empty trace, and the render walk over it yields a trace. -/
theorem polyline_short_skip_witness :
    (([(⟨0, 0⟩ : Vec2)].length < 2)
    ∧ renderCmd 100 100 noFonts (DrawCmd.polyline [⟨0, 0⟩] true sampleStroke) = some [])
    ∧ (render_to_canvas [DrawCmd.polyline [⟨0, 0⟩] true sampleStroke] 100 100
        noFonts).isSome = true := by
  have h := polyline_short_skip 100 100 noFonts [⟨0, 0⟩] true sampleStroke
    [DrawCmd.polyline [⟨0, 0⟩] true sampleStroke]
  exact ⟨⟨by decide, h.1 (by decide)⟩, h.2⟩

/-- Witness for `font_fallback_order`: with only the `ATARI` font registered,
an unknown style 5 resolves to it; with no font registered at all, style 5
resolves to nothing and a text command emits an empty trace. -/
theorem font_fallback_order_witness :
    resolveFont atariOnly ⟨5⟩ = some emptyFont
    ∧ resolveFont noFonts ⟨5⟩ = none
    ∧ render_vector_text_with_glow noFonts ⟨5⟩ [Char.ofNat 72] 0 0 14 whiteColor 50 50 50 = []
    ∧ renderCmd 100 100 noFonts (DrawCmd.text ⟨0, 0⟩ [Char.ofNat 72] 14 whiteColor ⟨5⟩)
        = some (render_vector_text_with_glow noFonts ⟨5⟩ [Char.ofNat 72] 0 0 14 whiteColor
            (min 100 100 / 2) (100 / 2) (100 / 2)) := by
  have ha := (font_fallback_order atariOnly ⟨5⟩ emptyFont [Char.ofNat 72] 0 0 14 whiteColor
    50 50 50 100 100 ⟨0, 0⟩).2.2.1 rfl rfl rfl
  have hn := (font_fallback_order noFonts ⟨5⟩ emptyFont [Char.ofNat 72] 0 0 14 whiteColor
    50 50 50 100 100 ⟨0, 0⟩).2.2.2 rfl rfl rfl
  exact ⟨ha, hn.1, hn.2.1, hn.2.2⟩

/-- Witness for `missing_glyph_advances`: the glyphless font at character `A`
(size 14 px, projection scale 50, cursor 3) advances by `14/50 · 0.6` and
emits nothing. -/
theorem missing_glyph_advances_witness :
    (emptyFont.has_glyph (Char.ofNat 65) = false)
    ∧ renderChar emptyFont (14 / 50) 0 50 50 50 3 (Char.ofNat 65)
        = ([], 3 + 14 / 50 * (6 / 10))
    ∧ renderChars emptyFont (14 / 50) 0 50 50 50 [Char.ofNat 65] 3
        = renderChars emptyFont (14 / 50) 0 50 50 50 [] (3 + 14 / 50 * (6 / 10)) := by
  have h := missing_glyph_advances emptyFont 14 50 0 50 50 3 (Char.ofNat 65) [] rfl
  exact ⟨rfl, h.1, h.2⟩
